import Mathlib

/-!
# Verification of the robotics_2026 ensemble projection engine

Shallow embedding of the projection engine (`src/analysis.py`,
`RoboticsProjectionAnalyzer`) and the dataset provider
(`src/data_collection.py`, `RoboticsDataCollector`).

Modelling conventions:
* Python floats are modelled as exact real numbers (`ℝ`); years are `ℤ`.
* `numpy` reductions (`np.average`, `np.std`, least-squares fits) are
  modelled by their exact mathematical definitions.
* Pandas cells that may be NaN are modelled as `Option ℝ` (`none` = NaN).
* Python exceptions are modelled with `Except String`.
* The fixed historical dataset is stored with exact rational (`ℚ`) cell
  values so that structural facts about it are decidable; the engine
  consumes the real-valued view of those columns.
-/

namespace Robotics

/-- Mean of a list of reals, `np.mean` / the division used by least squares. -/
noncomputable def npMean (l : List ℝ) : ℝ := l.sum / l.length

/-- Weighted arithmetic mean, the semantics of `np.average(vals, weights=w)`:
dot product of values and weights divided by the total weight. -/
noncomputable def npAverage (vals weights : List ℝ) : ℝ :=
  ((vals.zip weights).map (fun p => p.1 * p.2)).sum / weights.sum

/-- Population standard deviation, the semantics of `np.std` (default `ddof=0`). -/
noncomputable def npStd (l : List ℝ) : ℝ :=
  Real.sqrt ((l.map (fun x => (x - npMean l) ^ 2)).sum / l.length)

/-- `project_linear_trend` (`src/analysis.py` lines 38-47).
`sklearn.LinearRegression` fits a least-squares line over the points
`(year, value)` and the method evaluates it at `target_year`, clamped to be
non-negative.  The fit is embedded by its closed form on centered data
(slope `Sxy / Sxx`, intercept through the means), which is exactly what the
library computes; when all years coincide `Sxy = Sxx = 0` and the Lean
convention `0 / 0 = 0` coincides with the minimum-norm solution the library
returns on centered data. -/
noncomputable def project_linear_trend (values : List ℝ) (years : List ℤ)
    (target_year : ℤ) : ℝ :=
  let xs : List ℝ := years.map (fun y : ℤ => (y : ℝ))
  let xbar := npMean xs
  let ybar := npMean values
  let sxx := (xs.map (fun x => (x - xbar) ^ 2)).sum
  let sxy := ((xs.zip values).map (fun p => (p.1 - xbar) * (p.2 - ybar))).sum
  let slope := sxy / sxx
  let intercept := ybar - slope * xbar
  max 0 (slope * (target_year : ℝ) + intercept)

/-- `project_polynomial_trend` (`src/analysis.py` lines 49-62), specialised to
`degree = 2`, the only degree the program ever uses.
`PolynomialFeatures(degree=2)` expands a year into `[1, x, x²]` and
`LinearRegression` then fits `y ≈ b₀ + b₁·x + b₂·x²` by least squares
(the constant feature is annihilated by the library's centering step).
The fit is embedded by the closed-form solution (Cramer's rule) of the
2×2 normal equations on the centered features `x - x̄` and `x² - avg(x²)`;
the determinant is nonzero whenever the program's 10-point series is used. -/
noncomputable def project_polynomial_trend (values : List ℝ) (years : List ℤ)
    (target_year : ℤ) : ℝ :=
  let xs : List ℝ := years.map (fun y : ℤ => (y : ℝ))
  let ubar := npMean xs
  let wbar := npMean (xs.map (fun x => x ^ 2))
  let ybar := npMean values
  let u := xs.map (fun x => x - ubar)
  let w := xs.map (fun x => x ^ 2 - wbar)
  let yc := values.map (fun y => y - ybar)
  let suu := (u.map (fun a => a ^ 2)).sum
  let sww := (w.map (fun a => a ^ 2)).sum
  let suw := ((u.zip w).map (fun p => p.1 * p.2)).sum
  let suy := ((u.zip yc).map (fun p => p.1 * p.2)).sum
  let swy := ((w.zip yc).map (fun p => p.1 * p.2)).sum
  let det := suu * sww - suw ^ 2
  let a := (suy * sww - swy * suw) / det
  let b := (suu * swy - suw * suy) / det
  max 0 (ybar + a * ((target_year : ℝ) - ubar) + b * ((target_year : ℝ) ^ 2 - wbar))

/-- The tail of the smoothed series: given the previous smoothed value `prev`,
each remaining observation `v` contributes `alpha * v + (1 - alpha) * prev`.
Mirrors the loop `for i in range(1, len(values))` of
`project_exponential_smoothing`. -/
noncomputable def smoothFrom (alpha prev : ℝ) : List ℝ → List ℝ
  | [] => []
  | v :: rest =>
      (alpha * v + (1 - alpha) * prev) :: smoothFrom alpha (alpha * v + (1 - alpha) * prev) rest

/-- The smoothed series `smoothed` of `project_exponential_smoothing`:
`smoothed[0] = values[0]`, then the recurrence of `smoothFrom`.
The source indexes `values[0]` and therefore raises on an empty list;
the claims only quantify over non-empty series, and the model returns `[]`
there. -/
noncomputable def smoothed (alpha : ℝ) : List ℝ → List ℝ
  | [] => []
  | v :: rest => v :: smoothFrom alpha v rest

/-- `project_exponential_smoothing` (`src/analysis.py` lines 64-75).
`trend = smoothed[-1] - smoothed[-2]` when the smoothed series has more than
one entry, else `0`; projection `smoothed[-1] + trend * periods`, clamped. -/
noncomputable def project_exponential_smoothing (values : List ℝ)
    (alpha periods : ℝ) : ℝ :=
  let s := smoothed alpha values
  let trend := if 1 < s.length then s.getLastD 0 - s.dropLast.getLastD 0 else 0
  max 0 (s.getLastD 0 + trend * periods)

/-- `project_cagr` (`src/analysis.py` lines 77-96).
Fewer than 2 points: return the last value (`0` on an empty list, the
source's `values[-1] if values else 0`).  First value `≤ 0`: return the last
value unchanged.  Otherwise compound the implied annual growth rate forward
to the target year and clamp.  The real power `(last / first) ^ (1 / num_years)`
is `Real.rpow`; the integer power over `years_ahead` is `zpow`, matching
Python `**` on the inputs the program supplies (the source would raise a
`ZeroDivisionError` if `years[-1] = years[0]`, which cannot happen for the
strictly increasing year columns the claims quantify over). -/
noncomputable def project_cagr (values : List ℝ) (years : List ℤ)
    (target_year : ℤ) : ℝ :=
  if values.length < 2 then values.getLastD 0
  else
    let first := values.headD 0
    let last := values.getLastD 0
    let num_years : ℤ := years.getLastD 0 - years.headD 0
    if first ≤ 0 then last
    else
      let cagr := (last / first) ^ ((1 : ℝ) / (num_years : ℝ)) - 1
      let years_ahead : ℤ := target_year - years.getLastD 0
      max 0 (last * (1 + cagr) ^ years_ahead)

/-- The record returned by `ensemble_projection`
(`src/analysis.py` lines 122-129). -/
structure EnsembleResult where
  ensemble : ℝ
  linear : ℝ
  polynomial : ℝ
  exponential_smoothing : ℝ
  cagr : ℝ
  std : ℝ

/-- `ensemble_projection` (`src/analysis.py` lines 98-129), modelled by its
evident intent.  Line 107 of the source,
`self.project_polynomial_trend(values, years, degree=2, target_year)`,
is a syntax error in the host language (a positional argument after a
keyword argument), so the method as committed can never run; the evident
intent `target_year=target_year` is modelled here.  The exponential
smoothing component is invoked as in the source with `periods=2` and the
default `alpha=0.3`, without the target year. -/
noncomputable def ensemble_projection (values : List ℝ) (years : List ℤ)
    (target_year : ℤ) : EnsembleResult :=
  let linear := project_linear_trend values years target_year
  let poly2 := project_polynomial_trend values years target_year
  let exp_smooth := project_exponential_smoothing values 0.3 2
  let cagr_proj := project_cagr values years target_year
  let projections := [linear, poly2, exp_smooth, cagr_proj]
  let weights : List ℝ := [0.2, 0.3, 0.2, 0.3]
  { ensemble := npAverage projections weights
    linear := linear
    polynomial := poly2
    exponential_smoothing := exp_smooth
    cagr := cagr_proj
    std := npStd projections }

/-! ## Historical dataset provider (`src/data_collection.py`) -/

/-- One of the three tables built by `generate_historical_data`: a `year`
column plus named value columns.  Cells are exact rationals so facts about
the fixed dataset are decidable; the engine consumes `tableColumn`, the
real-valued view. -/
structure HistTable where
  year : List ℤ
  cols : List (String × List ℚ)

/-- `list(range(2015, 2025))` (`src/data_collection.py` line 60). -/
def years2015to2024 : List ℤ :=
  [2015, 2016, 2017, 2018, 2019, 2020, 2021, 2022, 2023, 2024]

/-- The `global_data` table (`src/data_collection.py` lines 63-80). -/
def globalTable : HistTable where
  year := years2015to2024
  cols :=
    [("global_market_size", [24.8, 27.4, 31.1, 34.8, 38.2, 42.5, 47.8, 55.3, 63.2, 70.5]),
     ("industrial_robots", [18.5, 20.2, 22.8, 25.1, 27.3, 30.2, 33.8, 38.9, 44.2, 49.1]),
     ("service_robots", [3.2, 3.8, 4.5, 5.2, 6.1, 7.3, 8.5, 10.1, 12.0, 13.8]),
     ("medical_robots", [1.8, 2.1, 2.4, 2.8, 3.2, 3.6, 4.1, 4.7, 5.3, 6.0]),
     ("agricultural_robots", [1.3, 1.3, 1.4, 1.7, 1.6, 1.4, 1.4, 1.6, 1.7, 1.6])]

/-- The `regional_data` table (`src/data_collection.py` lines 83-103). -/
def regionalTable : HistTable where
  year := years2015to2024
  cols :=
    [("china", [6.8, 8.2, 10.1, 12.3, 14.5, 16.8, 19.5, 22.8, 26.5, 29.8]),
     ("japan", [4.2, 4.5, 4.8, 5.1, 5.4, 5.7, 6.0, 6.4, 6.8, 7.2]),
     ("south_korea", [2.1, 2.3, 2.5, 2.7, 2.9, 3.1, 3.3, 3.5, 3.7, 3.9]),
     ("germany", [2.8, 3.0, 3.2, 3.4, 3.6, 3.8, 4.0, 4.3, 4.6, 4.9]),
     ("usa", [3.5, 3.8, 4.1, 4.4, 4.7, 5.0, 5.4, 5.8, 6.2, 6.6]),
     ("rest_of_world", [5.4, 5.6, 5.9, 6.3, 6.7, 7.1, 7.6, 8.2, 8.8, 9.5])]

/-- The `installations_data` table (`src/data_collection.py` lines 106-120). -/
def installationsTable : HistTable where
  year := years2015to2024
  cols :=
    [("global_installations", [254, 294, 340, 381, 422, 465, 517, 553, 610, 680]),
     ("china_installations", [68, 87, 138, 154, 181, 194, 214, 268, 290, 320]),
     ("industrial_installations", [253, 293, 339, 380, 421, 464, 516, 552, 609, 679]),
     ("service_installations", [5.4, 6.7, 8.2, 10.1, 12.5, 15.3, 18.7, 22.4, 26.8, 31.5])]

/-- The values returned by `generate_historical_data`
(`src/data_collection.py` lines 45-148): the three fixed tables, which the
method builds from literal constants. -/
def generate_historical_data : HistTable × HistTable × HistTable :=
  (globalTable, regionalTable, installationsTable)

/-- `generate_historical_data` as a function of the ambient state it runs in
(filesystem contents, earlier invocations, ...).  The source reads nothing
from that state when computing its return value — the data is literal and
no randomness is involved — so the model ignores the state argument.  The
method's only side effect is persisting the tables to CSV files, which does
not feed back into the returned values. -/
def generateHistoricalDataFrom (σ : Type) (_state : σ) :
    HistTable × HistTable × HistTable :=
  generate_historical_data

/-- Required columns of the global table (`src/data_collection.py` lines 167-168). -/
def requiredGlobalCols : List String :=
  ["year", "global_market_size", "industrial_robots", "service_robots",
   "medical_robots", "agricultural_robots"]

/-- Required columns of the regional table (`src/data_collection.py` lines 169-170). -/
def requiredRegionalCols : List String :=
  ["year", "china", "japan", "south_korea", "germany", "usa", "rest_of_world"]

/-- Required columns of the installations table (`src/data_collection.py` lines 171-173). -/
def requiredInstallationsCols : List String :=
  ["year", "global_installations", "china_installations",
   "industrial_installations", "service_installations"]

/-- `_validate_dataframes` (`src/data_collection.py` lines 150-188): `true`
iff no `ValueError` is raised, i.e. every required column is present and no
table is empty.  The `year` column is the dedicated `year` field of the
model; null values only produce a warning in the source and are in any case
unrepresentable in the exact-rational cells. -/
def validate_dataframes (g r i : HistTable) : Bool :=
  [(g, requiredGlobalCols), (r, requiredRegionalCols),
   (i, requiredInstallationsCols)].all
    (fun t =>
      (t.2.all (fun c => c == "year" || (t.1.cols.map Prod.fst).contains c))
        && !t.1.year.isEmpty)

/-! ## `calculate_growth_rates` (`src/data_collection.py` lines 225-256) -/

/-- A pandas dataframe as used by `calculate_growth_rates`: a row count and
named columns whose cells may be NaN (`none`). -/
structure DataFrame where
  nrows : ℕ
  cols : List (String × List (Option ℝ))

/-- Pandas `Series.pct_change()`: the first entry is NaN, and each later
entry divides the current value by the previous one minus 1; any NaN operand
yields NaN. -/
noncomputable def pctChange (l : List (Option ℝ)) : List (Option ℝ) :=
  match l with
  | [] => []
  | _ :: _ =>
      none :: (l.zip l.tail).map
        (fun p =>
          match p.1, p.2 with
          | some a, some b => some (b / a - 1)
          | _, _ => none)

/-- The single CAGR value `calculate_growth_rates` broadcasts across all
rows (`src/data_collection.py` lines 248-254): when the first cell of the
column holds a value `> 0` it is
`((last / first) ^ (1 / (nrows - 1)) - 1) * 100`, otherwise NaN.
Note the exponent uses `len(df) - 1`, not the year span. -/
noncomputable def broadcastCagr (nrows : ℕ) (col : List (Option ℝ)) : Option ℝ :=
  match col.headD none, col.getLastD none with
  | some first, some last =>
      if 0 < first then
        some (((last / first) ^ ((1 : ℝ) / ((nrows - 1 : ℕ) : ℝ)) - 1) * 100)
      else none
  | _, _ => none

/-- `calculate_growth_rates` (`src/data_collection.py` lines 225-256).
Raises `ValueError` (modelled as `Except.error`; messages abridged) when the
named column is absent or the frame has fewer than 2 rows; otherwise returns
the frame with a `growth_rate` column (`pct_change() * 100`) and a `cagr`
column broadcasting `broadcastCagr` to every row. -/
noncomputable def calculate_growth_rates (df : DataFrame) (value_column : String) :
    Except String DataFrame :=
  match df.cols.lookup value_column with
  | none => Except.error "Column not found in dataframe"
  | some col =>
      if df.nrows < 2 then
        Except.error "DataFrame must have at least 2 rows to calculate growth rates"
      else
        Except.ok
          { nrows := df.nrows
            cols := df.cols ++
              [("growth_rate", (pctChange col).map (Option.map (fun x => x * 100))),
               ("cagr", List.replicate df.nrows (broadcastCagr df.nrows col))] }

/-! ## `generate_2026_projections` (`src/analysis.py` lines 131-179) -/

/-- The segment metric names (`src/analysis.py` line 147). -/
def segmentNames : List String :=
  ["industrial_robots", "service_robots", "medical_robots", "agricultural_robots"]

/-- The regional metric names (`src/analysis.py` line 158). -/
def regionNames : List String :=
  ["china", "japan", "south_korea", "germany", "usa", "rest_of_world"]

/-- The installation metric names (`src/analysis.py` lines 169-170). -/
def installationNames : List String :=
  ["global_installations", "china_installations", "industrial_installations",
   "service_installations"]

/-- All 15 metric names, in the order `generate_2026_projections` inserts
them into its result dict. -/
def metricNames : List String :=
  "global_market_size" :: (segmentNames ++ regionNames ++ installationNames)

/-- The real-valued view of a named column of a table (`df[name].values`). -/
noncomputable def tableColumn (t : HistTable) (name : String) : List ℝ :=
  ((t.cols.lookup name).getD []).map (fun q : ℚ => (q : ℝ))

/-- One of the projection loops of `generate_2026_projections`: for each
name in `names`, run `ensemble_projection` on that column of `t` together
with `t`'s year column. -/
noncomputable def projectTable (t : HistTable) (names : List String)
    (target_year : ℤ) : List (String × EnsembleResult) :=
  names.map (fun n => (n, ensemble_projection (tableColumn t n) t.year target_year))

/-- `generate_2026_projections` (`src/analysis.py` lines 131-179) on the
fixed dataset of `generate_historical_data` (what `load_data` returns when
no files are persisted), modelled by the evident intent of the source — see
`ensemble_projection` for the line-107 syntax error.  The four
near-identical blocks of the source are the three `projectTable` calls
below, in the source's insertion order. -/
noncomputable def generate_2026_projections : List (String × EnsembleResult) :=
  projectTable globalTable ("global_market_size" :: segmentNames) 2026
    ++ projectTable regionalTable regionNames 2026
    ++ projectTable installationsTable installationNames 2026

/-- The named column looked up across the three tables (the names are
pairwise distinct, so this agrees with the per-table lookup the source
performs). -/
def allColumnQ (name : String) : List ℚ :=
  (((globalTable.cols ++ regionalTable.cols ++ installationsTable.cols).lookup
      name).getD [])

/-- Real-valued view of `allColumnQ`. -/
noncomputable def allColumn (name : String) : List ℝ :=
  (allColumnQ name).map (fun q : ℚ => (q : ℝ))

/-- The projection of a single named metric: its own series, the shared year
column, target year 2026.  Each metric is computed independently of all
others. -/
noncomputable def metricProjection (name : String) : EnsembleResult :=
  ensemble_projection (allColumn name) years2015to2024 2026

/-- The projection mapping built by processing the metrics in the given
order. -/
noncomputable def projectMetrics (order : List String) :
    List (String × EnsembleResult) :=
  order.map (fun n => (n, metricProjection n))

/-- All-zero result, used as the out-of-range default when indexing the
projection list. -/
def emptyResult : EnsembleResult :=
  { ensemble := 0, linear := 0, polynomial := 0, exponential_smoothing := 0,
    cagr := 0, std := 0 }

/-! ## List helper lemmas -/

/-- Mapping a binary form over a list zipped with its own image. -/
theorem zip_map_right (xs : List ℝ) (g : ℝ → ℝ) (F : ℝ × ℝ → ℝ) :
    (xs.zip (xs.map g)).map F = xs.map (fun x => F (x, g x)) := by
  induction xs with
  | nil => rfl
  | cons a l ih => simp [ih]

/-- Sum of an affine image of a list. -/
theorem sum_map_affine (l : List ℝ) (a b : ℝ) :
    (l.map fun x => a * x + b).sum = a * l.sum + b * l.length := by
  induction l with
  | nil => simp
  | cons x t ih =>
      simp only [List.map_cons, List.sum_cons, ih, List.length_cons]
      push_cast
      ring

/-- Scalars pull out of a mapped sum. -/
theorem sum_map_smul (l : List ℝ) (a : ℝ) (f : ℝ → ℝ) :
    (l.map fun x => a * f x).sum = a * (l.map f).sum := by
  induction l with
  | nil => simp
  | cons x t ih =>
      simp only [List.map_cons, List.sum_cons, ih]
      ring

/-- Mean of an affine image of a list with nonzero length. -/
theorem npMean_affine (l : List ℝ) (a b : ℝ) (h : ((l.length : ℝ)) ≠ 0) :
    npMean (l.map fun x => a * x + b) = a * npMean l + b := by
  unfold npMean
  rw [sum_map_affine]
  simp only [List.length_map]
  calc (a * l.sum + b * (l.length : ℝ)) / (l.length : ℝ)
      = a * (l.sum / (l.length : ℝ)) + b * ((l.length : ℝ) / (l.length : ℝ)) := by
        ring
    _ = a * (l.sum / (l.length : ℝ)) + b := by rw [div_self h, mul_one]

/-- The default-valued last element of a non-empty list is an element of it. -/
theorem getLastD_mem (l : List ℝ) (d : ℝ) (h : l ≠ []) : l.getLastD d ∈ l := by
  cases l with
  | nil => cases h rfl
  | cons a t =>
      rw [List.getLastD_cons]
      exact List.getLastD_mem_cons t a

/-- A sum of squared deviations over a list with two distinct entries is
nonzero. -/
theorem sq_dev_sum_ne_zero (x0 x1 : ℝ) (rest : List ℝ) (hne : x0 ≠ x1) (m : ℝ) :
    ((x0 :: x1 :: rest).map fun x => (x - m) ^ 2).sum ≠ 0 := by
  simp only [List.map_cons, List.sum_cons]
  intro h
  have hr : (0 : ℝ) ≤ (rest.map fun x => (x - m) ^ 2).sum := by
    apply List.sum_nonneg
    intro a ha
    obtain ⟨x, _, rfl⟩ := List.mem_map.mp ha
    positivity
  have e0 : (x0 - m) ^ 2 = 0 := by nlinarith [sq_nonneg (x0 - m), sq_nonneg (x1 - m)]
  have e1 : (x1 - m) ^ 2 = 0 := by nlinarith [sq_nonneg (x0 - m), sq_nonneg (x1 - m)]
  exact hne (by
    have h0 := sub_eq_zero.mp (pow_eq_zero_iff two_ne_zero |>.mp e0)
    have h1 := sub_eq_zero.mp (pow_eq_zero_iff two_ne_zero |>.mp e1)
    rw [h0, h1])

/-! ## C5: the linear method recovers a perfectly linear series -/

/-- C5: for every perfectly linear series `value = k·year + c` over two or
more strictly increasing years, with `k·target_year + c ≥ 0`, the linear
trend method's projection at any target year equals `k·target_year + c`
exactly: the least-squares fit recovers the generating line. -/
theorem linear_trend_recovers_line (years : List ℤ) (k c : ℝ) (t : ℤ)
    (h2 : 2 ≤ years.length) (hinc : years.Chain' (· < ·))
    (hpos : 0 ≤ k * (t : ℝ) + c) :
    project_linear_trend (years.map (fun yr : ℤ => k * (yr : ℝ) + c)) years t
      = k * (t : ℝ) + c := by
  rcases years with _ | ⟨y0, _ | ⟨y1, ys⟩⟩
  · norm_num at h2
  · norm_num at h2
  · have hlt : y0 < y1 := (List.chain'_cons.mp hinc).1
    have hxne : ((y0 : ℝ)) ≠ ((y1 : ℝ)) := by
      exact_mod_cast ne_of_lt hlt
    simp only [project_linear_trend]
    have hvals : List.map (fun yr : ℤ => k * (yr : ℝ) + c) (y0 :: y1 :: ys)
        = (List.map (fun y : ℤ => (y : ℝ)) (y0 :: y1 :: ys)).map (fun x => k * x + c) := by
      rw [List.map_map]
      rfl
    rw [hvals]
    set xs : List ℝ := List.map (fun y : ℤ => (y : ℝ)) (y0 :: y1 :: ys) with hxs
    have hnlen : ((xs.length : ℝ)) ≠ 0 := by
      have hl : xs.length = ys.length + 2 := by
        rw [hxs, List.length_map]
        rfl
      rw [hl]
      push_cast
      positivity
    have hybar : npMean (xs.map fun x => k * x + c) = k * npMean xs + c :=
      npMean_affine xs k c hnlen
    have hsxx_ne : ((xs.map fun x => (x - npMean xs) ^ 2).sum) ≠ 0 := by
      have hcons : xs = (y0 : ℝ) :: (y1 : ℝ) :: List.map (fun y : ℤ => (y : ℝ)) ys := by
        rw [hxs]
        rfl
      rw [hcons]
      exact sq_dev_sum_ne_zero _ _ _ hxne _
    have hsxy : ((xs.zip (xs.map fun x => k * x + c)).map
          fun p => (p.1 - npMean xs) * (p.2 - npMean (xs.map fun x => k * x + c))).sum
        = k * (xs.map fun x => (x - npMean xs) ^ 2).sum := by
      rw [zip_map_right, hybar, ← sum_map_smul]
      apply congrArg List.sum
      apply List.map_congr_left
      intro x _
      ring
    rw [hsxy, hybar, mul_div_assoc, div_self hsxx_ne, mul_one]
    have hfinal : k * (t : ℝ) + (k * npMean xs + c - k * npMean xs)
        = k * (t : ℝ) + c := by ring
    rw [hfinal, max_eq_right hpos]

/-- Witness for C5 at the concrete series `value = 2·year + 5` over
`[2020, 2021, 2022]`, target year 2026. -/
theorem linear_trend_recovers_line_witness :
    project_linear_trend
      (([2020, 2021, 2022] : List ℤ).map (fun yr : ℤ => (2 : ℝ) * (yr : ℝ) + 5))
      [2020, 2021, 2022] 2026 = 2 * ((2026 : ℤ) : ℝ) + 5 :=
  linear_trend_recovers_line [2020, 2021, 2022] 2 5 2026 (by norm_num)
    (by norm_num [List.chain'_cons]) (by norm_num)

/-! ## C2: all four methods are clamped to be non-negative -/

/-- The linear method is clamped: its output is never negative. -/
theorem project_linear_trend_nonneg (values : List ℝ) (years : List ℤ) (t : ℤ) :
    0 ≤ project_linear_trend values years t := by
  simp only [project_linear_trend]
  exact le_max_left _ _

/-- The polynomial method is clamped: its output is never negative. -/
theorem project_polynomial_trend_nonneg (values : List ℝ) (years : List ℤ) (t : ℤ) :
    0 ≤ project_polynomial_trend values years t := by
  simp only [project_polynomial_trend]
  exact le_max_left _ _

/-- The exponential smoothing method is clamped: its output is never
negative. -/
theorem project_exponential_smoothing_nonneg (values : List ℝ) (alpha periods : ℝ) :
    0 ≤ project_exponential_smoothing values alpha periods := by
  simp only [project_exponential_smoothing]
  exact le_max_left _ _

/-- The CAGR method is non-negative on non-empty series of non-negative
values: the short-series and non-positive-first-value branches return an
element of the series, and the main branch is clamped. -/
theorem project_cagr_nonneg (values : List ℝ) (years : List ℤ) (t : ℤ)
    (hne : values ≠ []) (hnn : ∀ x ∈ values, 0 ≤ x) :
    0 ≤ project_cagr values years t := by
  simp only [project_cagr]
  split_ifs with h1 h2
  · exact hnn _ (getLastD_mem values 0 hne)
  · exact hnn _ (getLastD_mem values 0 hne)
  · exact le_max_left _ _

/-- C2: on every valid non-empty historical series (non-negative values at
strictly increasing years, one year per value), each of the four projection
methods — linear, polynomial (degree 2), exponential smoothing (with its
fixed `alpha=0.3`, `periods=2`), and CAGR — returns a value `≥ 0`. -/
theorem four_methods_nonneg (values : List ℝ) (years : List ℤ) (t : ℤ)
    (hne : values ≠ []) (hnn : ∀ x ∈ values, 0 ≤ x)
    (hlen : years.length = values.length) (hinc : years.Chain' (· < ·)) :
    0 ≤ project_linear_trend values years t ∧
    0 ≤ project_polynomial_trend values years t ∧
    0 ≤ project_exponential_smoothing values 0.3 2 ∧
    0 ≤ project_cagr values years t :=
  ⟨project_linear_trend_nonneg values years t,
   project_polynomial_trend_nonneg values years t,
   project_exponential_smoothing_nonneg values 0.3 2,
   project_cagr_nonneg values years t hne hnn⟩

/-- Witness for C2 at the valid series `[10, 20]` over years `[2020, 2021]`,
target year 2026. -/
theorem four_methods_nonneg_witness :
    0 ≤ project_linear_trend [10, 20] [2020, 2021] 2026 ∧
    0 ≤ project_polynomial_trend [10, 20] [2020, 2021] 2026 ∧
    0 ≤ project_exponential_smoothing [10, 20] 0.3 2 ∧
    0 ≤ project_cagr [10, 20] [2020, 2021] 2026 :=
  four_methods_nonneg [10, 20] [2020, 2021] 2026 (by simp)
    (by intro x hx; rcases List.mem_pair.mp hx with h | h <;> rw [h] <;> norm_num)
    (by simp) (by norm_num [List.chain'_cons])

/-! ## C9: the exponential smoothing component ignores the target year -/

/-- C9 (on the evident-intent model of `ensemble_projection`, see its
doc comment): the `exponential_smoothing` field of the ensemble result is
the same for any two target years — the ensemble invokes the method with
the fixed `periods=2` (and default `alpha=0.3`) and never passes the target
year. -/
theorem ensemble_exp_smoothing_target_independent (values : List ℝ)
    (years : List ℤ) (t1 t2 : ℤ) :
    (ensemble_projection values years t1).exponential_smoothing
        = (ensemble_projection values years t2).exponential_smoothing ∧
    (ensemble_projection values years t1).exponential_smoothing
        = project_exponential_smoothing values 0.3 2 :=
  ⟨rfl, rfl⟩

/-! ## C1: ensemble combination (evident-intent model) -/

/-- C1 (on the evident-intent model of `ensemble_projection`; the committed
source cannot run, see the doc comment there): the `ensemble` field is the
weighted arithmetic mean of the four method outputs under the weight vector
`[0.2, 0.3, 0.2, 0.3]`, and the `std` field is the unweighted population
standard deviation of the four raw method outputs. -/
theorem ensemble_weighted_mean_and_std (values : List ℝ) (years : List ℤ) (t : ℤ) :
    (ensemble_projection values years t).ensemble
        = 0.2 * (ensemble_projection values years t).linear
          + 0.3 * (ensemble_projection values years t).polynomial
          + 0.2 * (ensemble_projection values years t).exponential_smoothing
          + 0.3 * (ensemble_projection values years t).cagr ∧
    (ensemble_projection values years t).std
        = Real.sqrt
            ((((ensemble_projection values years t).linear
                  - ((ensemble_projection values years t).linear
                     + (ensemble_projection values years t).polynomial
                     + (ensemble_projection values years t).exponential_smoothing
                     + (ensemble_projection values years t).cagr) / 4) ^ 2
              + ((ensemble_projection values years t).polynomial
                  - ((ensemble_projection values years t).linear
                     + (ensemble_projection values years t).polynomial
                     + (ensemble_projection values years t).exponential_smoothing
                     + (ensemble_projection values years t).cagr) / 4) ^ 2
              + ((ensemble_projection values years t).exponential_smoothing
                  - ((ensemble_projection values years t).linear
                     + (ensemble_projection values years t).polynomial
                     + (ensemble_projection values years t).exponential_smoothing
                     + (ensemble_projection values years t).cagr) / 4) ^ 2
              + ((ensemble_projection values years t).cagr
                  - ((ensemble_projection values years t).linear
                     + (ensemble_projection values years t).polynomial
                     + (ensemble_projection values years t).exponential_smoothing
                     + (ensemble_projection values years t).cagr) / 4) ^ 2) / 4) := by
  set pl := project_linear_trend values years t with hpl
  set pp := project_polynomial_trend values years t with hpp
  set pe := project_exponential_smoothing values 0.3 2 with hpe
  set pc := project_cagr values years t with hpc
  constructor
  · show npAverage [pl, pp, pe, pc] [0.2, 0.3, 0.2, 0.3]
        = 0.2 * pl + 0.3 * pp + 0.2 * pe + 0.3 * pc
    unfold npAverage
    simp only [List.zip_cons_cons, List.zip_nil_right, List.map_cons,
      List.map_nil, List.sum_cons, List.sum_nil]
    norm_num
    ring
  · show npStd [pl, pp, pe, pc]
        = Real.sqrt (((pl - (pl + pp + pe + pc) / 4) ^ 2
            + (pp - (pl + pp + pe + pc) / 4) ^ 2
            + (pe - (pl + pp + pe + pc) / 4) ^ 2
            + (pc - (pl + pp + pe + pc) / 4) ^ 2) / 4)
    unfold npStd npMean
    simp only [List.map_cons, List.map_nil, List.sum_cons, List.sum_nil,
      List.length_cons, List.length_nil]
    norm_num
    ring_nf

/-! ## C4: exponential smoothing -/

/-- Modelled from the spec: the smoothed sequence as the spec states it, by
index — `S[0] = value[0]`, `S[i] = alpha * value[i] + (1 - alpha) * S[i-1]`.
Used to compare the source's list-building loop against the spec's
recurrence. -/
noncomputable def smoothedSpec (alpha : ℝ) (values : List ℝ) : ℕ → ℝ
  | 0 => values.headD 0
  | i + 1 => alpha * values.getD (i + 1) 0 + (1 - alpha) * smoothedSpec alpha values i

/-- `smoothFrom` preserves length. -/
theorem smoothFrom_length (alpha : ℝ) (l : List ℝ) :
    ∀ prev : ℝ, (smoothFrom alpha prev l).length = l.length := by
  induction l with
  | nil => intro prev; rfl
  | cons v rest ih => intro prev; simp [smoothFrom, ih]

/-- The smoothed series has the same length as the input. -/
theorem smoothed_length (alpha : ℝ) (l : List ℝ) :
    (smoothed alpha l).length = l.length := by
  cases l with
  | nil => rfl
  | cons v rest => simp [smoothed, smoothFrom_length]

/-- Each entry of `smoothFrom` blends the current observation with the
entry before it (`prev` standing at index `-1`). -/
theorem smoothFrom_getD (alpha : ℝ) :
    ∀ (rest : List ℝ) (prev : ℝ) (i : ℕ), i < rest.length →
      (smoothFrom alpha prev rest).getD i 0
        = alpha * rest.getD i 0
          + (1 - alpha) * ((prev :: smoothFrom alpha prev rest).getD i 0) := by
  intro rest
  induction rest with
  | nil => intro prev i h; simp at h
  | cons v r ih =>
      intro prev i h
      cases i with
      | zero => simp [smoothFrom]
      | succ j =>
          have hj : j < r.length := by
            simpa using Nat.lt_of_succ_lt_succ h
          simpa [smoothFrom] using ih (alpha * v + (1 - alpha) * prev) j hj

/-- The source's smoothed list agrees with the spec's indexed recurrence at
every index of the series. -/
theorem smoothed_getD_eq_spec (alpha : ℝ) (values : List ℝ) :
    ∀ i : ℕ, i < values.length →
      (smoothed alpha values).getD i 0 = smoothedSpec alpha values i := by
  intro i
  induction i with
  | zero =>
      intro h
      cases values with
      | nil => simp at h
      | cons v rest => simp [smoothed, smoothedSpec]
  | succ j ihj =>
      intro h
      cases values with
      | nil => simp at h
      | cons v rest =>
          have hj : j < rest.length := Nat.lt_of_succ_lt_succ h
          have hlt : j < (v :: rest).length := by
            simp
            omega
          have hstep := smoothFrom_getD alpha rest v j hj
          calc (smoothed alpha (v :: rest)).getD (j + 1) 0
              = (smoothFrom alpha v rest).getD j 0 := by simp [smoothed]
            _ = alpha * rest.getD j 0
                + (1 - alpha) * ((v :: smoothFrom alpha v rest).getD j 0) := hstep
            _ = alpha * (v :: rest).getD (j + 1) 0
                + (1 - alpha) * ((smoothed alpha (v :: rest)).getD j 0) := by
                simp [smoothed]
            _ = smoothedSpec alpha (v :: rest) (j + 1) := by
                rw [ihj hlt]
                rfl

/-- The default-valued last element is the entry at index `length - 1`. -/
theorem getLastD_eq_getD (l : List ℝ) :
    l.getLastD 0 = l.getD (l.length - 1) 0 := by
  rw [List.getLastD_eq_getLast?, List.getLast?_eq_getElem?, List.getD_eq_getElem?_getD]

/-- The last element of `dropLast` is the entry at index `length - 2`. -/
theorem dropLast_getLastD_eq_getD (l : List ℝ) (h : 2 ≤ l.length) :
    l.dropLast.getLastD 0 = l.getD (l.length - 2) 0 := by
  rw [List.getLastD_eq_getLast?, List.getLast?_eq_getElem?, List.length_dropLast]
  rw [List.getD_eq_getElem?_getD, List.dropLast_eq_take]
  rw [List.getElem?_take_of_lt (by omega)]
  congr 1

/-- C4: the exponential smoothing method computes the spec's smoothed
sequence `S[0] = value[0]`, `S[i] = alpha·value[i] + (1-alpha)·S[i-1]`
(first conjunct), and on every non-empty series returns
`max(0, S[last] + periods·(S[last] - S[last-1]))` with `periods = 2`, the
trend term degenerating to `0` on a length-1 series; on `[10, 20]` with the
fixed `alpha = 0.3` the smoothed sequence is `[10, 13]` and the projection
is `19`. -/
theorem exp_smoothing_matches_spec :
    (∀ (alpha : ℝ) (values : List ℝ) (i : ℕ), i < values.length →
        (smoothed alpha values).getD i 0 = smoothedSpec alpha values i)
    ∧ (∀ (alpha : ℝ) (values : List ℝ), values ≠ [] →
        project_exponential_smoothing values alpha 2 =
          max 0 (smoothedSpec alpha values (values.length - 1)
            + (smoothedSpec alpha values (values.length - 1)
               - smoothedSpec alpha values (values.length - 2)) * 2))
    ∧ (∀ v : ℝ, project_exponential_smoothing [v] 0.3 2 = max 0 v)
    ∧ smoothed 0.3 [10, 20] = [10, 13]
    ∧ project_exponential_smoothing [10, 20] 0.3 2 = 19 := by
  refine ⟨fun alpha values i h => smoothed_getD_eq_spec alpha values i h, ?_, ?_, ?_, ?_⟩
  · intro alpha values hne
    simp only [project_exponential_smoothing]
    have hlen := smoothed_length alpha values
    by_cases h2 : 2 ≤ values.length
    · have h1 : 1 < (smoothed alpha values).length := by omega
      rw [if_pos h1]
      have hL : (smoothed alpha values).getLastD 0
          = smoothedSpec alpha values (values.length - 1) := by
        rw [getLastD_eq_getD, hlen]
        exact smoothed_getD_eq_spec alpha values _ (by omega)
      have hP : (smoothed alpha values).dropLast.getLastD 0
          = smoothedSpec alpha values (values.length - 2) := by
        rw [dropLast_getLastD_eq_getD _ (by omega), hlen]
        exact smoothed_getD_eq_spec alpha values _ (by omega)
      rw [hL, hP]
    · obtain ⟨v, rfl⟩ : ∃ v, values = [v] := by
        cases values with
        | nil => cases hne rfl
        | cons v rest =>
            cases rest with
            | nil => exact ⟨v, rfl⟩
            | cons w r => simp at h2
      have hnot : ¬ 1 < (smoothed alpha [v]).length := by
        rw [smoothed_length]
        simp
      rw [if_neg hnot]
      simp [smoothed, smoothFrom, smoothedSpec]
  · intro v
    have hnot : ¬ 1 < (smoothed (0.3 : ℝ) [v]).length := by
      rw [smoothed_length]
      simp
    simp only [project_exponential_smoothing, if_neg hnot]
    simp [smoothed, smoothFrom]
  · norm_num [smoothed, smoothFrom]
  · norm_num [project_exponential_smoothing, smoothed, smoothFrom]

/-- Witness for C4: the smoothing recurrence at index 1 of `[10, 20]`, and
the projection bridge on the non-empty series `[10, 20]`. -/
theorem exp_smoothing_matches_spec_witness :
    (smoothed 0.3 [10, 20]).getD 1 0 = smoothedSpec 0.3 [10, 20] 1 ∧
    project_exponential_smoothing [10, 20] 0.3 2 =
      max 0 (smoothedSpec 0.3 [10, 20] (([10, 20] : List ℝ).length - 1)
        + (smoothedSpec 0.3 [10, 20] (([10, 20] : List ℝ).length - 1)
           - smoothedSpec 0.3 [10, 20] (([10, 20] : List ℝ).length - 2)) * 2) :=
  ⟨exp_smoothing_matches_spec.1 0.3 [10, 20] 1 (by norm_num),
   exp_smoothing_matches_spec.2.1 0.3 [10, 20] (by simp)⟩

/-! ## C3: the CAGR method -/

/-- The square root of `121/100` as a real power: `(121/100)^(1/2) = 11/10`. -/
theorem rpow_half_121_100 : ((121 : ℝ) / 100) ^ ((1 : ℝ) / 2) = 11 / 10 := by
  have h : ((121 : ℝ) / 100) = ((11 / 10 : ℝ)) ^ (2 : ℕ) := by norm_num
  rw [h, ← Real.rpow_natCast ((11 : ℝ) / 10) 2,
    ← Real.rpow_mul (by norm_num : (0 : ℝ) ≤ 11 / 10)]
  rw [show ((2 : ℕ) : ℝ) * (1 / 2) = 1 by norm_num, Real.rpow_one]

/-- C3: `project_cagr` returns
`max(0, last · (1 + cagr)^(target - last_year))` with
`cagr = (last/first)^(1/(last_year - first_year)) - 1` on series of length
`≥ 2` with positive first value; returns the last value unchanged when the
first value is `≤ 0`; returns the single value on a one-point series and `0`
on an empty one; and on `[100, 110, 121]` at `[2020, 2021, 2022]` the
implied CAGR is `10%` and the projection to 2024 is exactly `146.41`. -/
theorem cagr_matches_spec :
    (∀ (values : List ℝ) (years : List ℤ) (t : ℤ),
        2 ≤ values.length → 0 < values.headD 0 →
        years.headD 0 < years.getLastD 0 →
        project_cagr values years t =
          max 0 (values.getLastD 0 *
            (1 + ((values.getLastD 0 / values.headD 0) ^
                ((1 : ℝ) / ((years.getLastD 0 - years.headD 0 : ℤ) : ℝ)) - 1)) ^
              (t - years.getLastD 0)))
    ∧ (∀ (values : List ℝ) (years : List ℤ) (t : ℤ),
        2 ≤ values.length → values.headD 0 ≤ 0 →
        project_cagr values years t = values.getLastD 0)
    ∧ (∀ (v : ℝ) (years : List ℤ) (t : ℤ), project_cagr [v] years t = v)
    ∧ (∀ (years : List ℤ) (t : ℤ), project_cagr [] years t = 0)
    ∧ ((121 / 100 : ℝ) ^ ((1 : ℝ) / 2) - 1 = 1 / 10)
    ∧ project_cagr [100, 110, 121] [2020, 2021, 2022] 2024 = 146.41 := by
  refine ⟨?_, ?_, ?_, ?_, ?_, ?_⟩
  · intro values years t h2 hpos hyy
    simp only [project_cagr]
    rw [if_neg (by omega), if_neg (not_le.mpr hpos)]
  · intro values years t h2 hle
    simp only [project_cagr]
    rw [if_neg (by omega), if_pos hle]
  · intro v years t
    simp [project_cagr]
  · intro years t
    simp [project_cagr]
  · rw [rpow_half_121_100]
    norm_num
  · have h1 : project_cagr [100, 110, 121] [2020, 2021, 2022] 2024
        = max 0 ((121 : ℝ) *
            (1 + (((121 : ℝ) / 100) ^ ((1 : ℝ) / 2) - 1)) ^ (2 : ℤ)) := by
      simp only [project_cagr]
      norm_num
    rw [h1, rpow_half_121_100]
    rw [show (1 : ℝ) + (11 / 10 - 1) = 11 / 10 by norm_num]
    rw [show ((2 : ℤ)) = ((2 : ℕ) : ℤ) by rfl, zpow_natCast]
    norm_num

/-- Witness for C3: the main-branch formula evaluated at the concrete series
`[100, 110, 121]` over `[2020, 2021, 2022]`, target year 2024. -/
theorem cagr_matches_spec_witness :
    project_cagr [100, 110, 121] [2020, 2021, 2022] 2024 =
      max 0 (([100, 110, 121] : List ℝ).getLastD 0 *
        (1 + ((([100, 110, 121] : List ℝ).getLastD 0 / ([100, 110, 121] : List ℝ).headD 0) ^
            ((1 : ℝ) / ((([2020, 2021, 2022] : List ℤ).getLastD 0
                - ([2020, 2021, 2022] : List ℤ).headD 0 : ℤ) : ℝ)) - 1)) ^
          ((2024 : ℤ) - ([2020, 2021, 2022] : List ℤ).getLastD 0)) :=
  cagr_matches_spec.1 [100, 110, 121] [2020, 2021, 2022] 2024 (by norm_num)
    (by norm_num) (by norm_num)

/-! ## C7 and C10: `calculate_growth_rates` -/

/-- The two-row frame of the spec example: `year` column and a `value`
column holding `[100, 110]`. -/
noncomputable def exampleGrowthDf : DataFrame where
  nrows := 2
  cols := [("year", [some 2023, some 2024]), ("value", [some 100, some 110])]

/-- The broadcast CAGR of the example column `[100, 110]` is `10`
(`(110/100)^(1/1) - 1 = 0.1`, times 100). -/
theorem broadcastCagr_example : broadcastCagr 2 [some (100 : ℝ), some 110] = some 10 := by
  show (if 0 < (100 : ℝ)
      then some ((((110 : ℝ) / 100) ^ ((1 : ℝ) / (((2 - 1 : ℕ)) : ℝ)) - 1) * 100)
      else none) = some 10
  rw [if_pos (by norm_num : (0 : ℝ) < 100)]
  rw [show ((1 : ℝ) / (((2 - 1 : ℕ)) : ℝ)) = 1 by norm_num, Real.rpow_one]
  norm_num

/-- C7: `calculate_growth_rates` fails with a `ValueError` exactly when the
named column is absent or the frame has fewer than 2 rows; on valid input it
returns the frame augmented with the year-over-year percentage-change column
and a single broadcast CAGR column, the CAGR being NaN whenever the first
value is `≤ 0`; and on the two-row series `[100, 110]` the `growth_rate`
column is `[NaN, 10.0]` and the `cagr` column is `10.0` in every row. -/
theorem calculate_growth_rates_spec :
    (∀ (df : DataFrame) (c : String),
        (∃ msg, calculate_growth_rates df c = Except.error msg) ↔
          (df.cols.lookup c = none ∨ df.nrows < 2))
    ∧ (∀ (df : DataFrame) (c : String) (col : List (Option ℝ)),
        df.cols.lookup c = some col → 2 ≤ df.nrows →
        calculate_growth_rates df c = Except.ok
          { nrows := df.nrows
            cols := df.cols ++
              [("growth_rate", (pctChange col).map (Option.map (fun x => x * 100))),
               ("cagr", List.replicate df.nrows (broadcastCagr df.nrows col))] })
    ∧ (∀ (n : ℕ) (col : List (Option ℝ)) (v : ℝ),
        col.headD none = some v → v ≤ 0 → broadcastCagr n col = none)
    ∧ calculate_growth_rates exampleGrowthDf "value"
      = Except.ok
          { nrows := 2
            cols := [("year", [some 2023, some 2024]),
                     ("value", [some 100, some 110]),
                     ("growth_rate", [none, some 10]),
                     ("cagr", [some 10, some 10])] } := by
  refine ⟨?_, ?_, ?_, ?_⟩
  · intro df c
    rcases h : df.cols.lookup c with _ | col
    · simp [calculate_growth_rates, h]
    · by_cases h2 : df.nrows < 2 <;> simp [calculate_growth_rates, h, h2]
  · intro df c col h hn
    simp only [calculate_growth_rates, h]
    rw [if_neg (by omega)]
  · intro n col v h hle
    unfold broadcastCagr
    rw [h]
    rcases hL : col.getLastD none with _ | last
    · rfl
    · simp [not_lt.mpr hle]
  · have hcol : exampleGrowthDf.cols.lookup "value" = some [some 100, some 110] := rfl
    simp only [calculate_growth_rates, hcol]
    rw [if_neg (by simp [exampleGrowthDf])]
    simp only [exampleGrowthDf, pctChange, List.zip_cons_cons, List.tail_cons,
      List.zip_nil_right, List.map_cons, List.map_nil, Option.map_some,
      Option.map_none, List.replicate, broadcastCagr_example]
    norm_num

/-- C10: the broadcast CAGR of `calculate_growth_rates` depends only on the
row count and the first and last cells of the named column — it equals
`((last/first)^(1/(nrows-1)) - 1) · 100` whenever the first value is
positive — and is independent of the `year` column; consequently, for rows
that are not contiguous annual steps it differs from the CAGR over the
actual year span, e.g. rows at years `[2020, 2022]` with values
`[100, 121]` give `21` while the year-span CAGR is `10`. -/
theorem broadcastCagr_ignores_years :
    (∀ (n : ℕ) (col : List (Option ℝ)) (f l : ℝ),
        col.headD none = some f → col.getLastD none = some l → 0 < f →
        broadcastCagr n col
          = some (((l / f) ^ ((1 : ℝ) / ((n - 1 : ℕ) : ℝ)) - 1) * 100))
    ∧ (∀ (n : ℕ) (col col2 : List (Option ℝ)),
        col.headD none = col2.headD none → col.getLastD none = col2.getLastD none →
        broadcastCagr n col = broadcastCagr n col2)
    ∧ (∀ (df : DataFrame) (c : String) (col : List (Option ℝ)) (out : DataFrame),
        df.cols.lookup c = some col → calculate_growth_rates df c = Except.ok out →
        out.cols.getLastD ("", [])
          = ("cagr", List.replicate df.nrows (broadcastCagr df.nrows col)))
    ∧ broadcastCagr 2 [some (100 : ℝ), some 121] = some 21
    ∧ (((121 / 100 : ℝ) ^ ((1 : ℝ) / 2) - 1) * 100 = 10)
    ∧ ((21 : ℝ) ≠ 10) := by
  refine ⟨?_, ?_, ?_, ?_, ?_, by norm_num⟩
  · intro n col f l hf hl hpos
    unfold broadcastCagr
    rw [hf, hl]
    simp [hpos]
  · intro n col col2 hf hl
    simp only [broadcastCagr, hf, hl]
  · intro df c col out h hok
    simp only [calculate_growth_rates, h] at hok
    by_cases h2 : df.nrows < 2
    · rw [if_pos h2] at hok
      cases hok
    · rw [if_neg h2] at hok
      cases hok
      simp
  · show (if 0 < (100 : ℝ)
        then some ((((121 : ℝ) / 100) ^ ((1 : ℝ) / (((2 - 1 : ℕ)) : ℝ)) - 1) * 100)
        else none) = some 21
    rw [if_pos (by norm_num : (0 : ℝ) < 100)]
    rw [show ((1 : ℝ) / (((2 - 1 : ℕ)) : ℝ)) = 1 by norm_num, Real.rpow_one]
    norm_num
  · rw [rpow_half_121_100]
    norm_num

/-- Witness for C7: the success case applied to the concrete two-row frame. -/
theorem calculate_growth_rates_spec_witness :
    calculate_growth_rates exampleGrowthDf "value"
      = Except.ok
          { nrows := exampleGrowthDf.nrows
            cols := exampleGrowthDf.cols ++
              [("growth_rate",
                 (pctChange [some 100, some 110]).map (Option.map (fun x => x * 100))),
               ("cagr",
                 List.replicate exampleGrowthDf.nrows
                   (broadcastCagr exampleGrowthDf.nrows [some 100, some 110]))] } :=
  calculate_growth_rates_spec.2.1 exampleGrowthDf "value" [some 100, some 110]
    rfl (by simp [exampleGrowthDf])

/-- Witness for C10: the CAGR formula applied to the concrete column
`[100, 121]` with 2 rows. -/
theorem broadcastCagr_ignores_years_witness :
    broadcastCagr 2 [some (100 : ℝ), some 121]
      = some ((((121 : ℝ) / 100) ^ ((1 : ℝ) / ((2 - 1 : ℕ) : ℝ)) - 1) * 100) :=
  broadcastCagr_ignores_years.1 2 [some 100, some 121] 100 121 rfl rfl (by norm_num)

/-! ## C8: the provider is deterministic -/

/-- C8: `generate_historical_data` is deterministic and idempotent — its
return value does not depend on any ambient state (first conjunct), and it
always produces the same fixed tables: years 2015-2024 in each table, the 5
global, 6 regional and 4 installation sub-series each with 10 values, and
the tables pass the provider's own validation. -/
theorem generate_historical_data_deterministic :
    (∀ (σ τ : Type) (s : σ) (u : τ),
        generateHistoricalDataFrom σ s = generateHistoricalDataFrom τ u)
    ∧ generate_historical_data.1.year = years2015to2024
    ∧ generate_historical_data.2.1.year = years2015to2024
    ∧ generate_historical_data.2.2.year = years2015to2024
    ∧ generate_historical_data.1.cols.map Prod.fst
        = ["global_market_size", "industrial_robots", "service_robots",
           "medical_robots", "agricultural_robots"]
    ∧ generate_historical_data.2.1.cols.map Prod.fst
        = ["china", "japan", "south_korea", "germany", "usa", "rest_of_world"]
    ∧ generate_historical_data.2.2.cols.map Prod.fst
        = ["global_installations", "china_installations",
           "industrial_installations", "service_installations"]
    ∧ generate_historical_data.1.cols.map (fun pr => pr.2.length)
        = [10, 10, 10, 10, 10]
    ∧ generate_historical_data.2.1.cols.map (fun pr => pr.2.length)
        = [10, 10, 10, 10, 10, 10]
    ∧ generate_historical_data.2.2.cols.map (fun pr => pr.2.length)
        = [10, 10, 10, 10]
    ∧ validate_dataframes generate_historical_data.1 generate_historical_data.2.1
        generate_historical_data.2.2 = true :=
  ⟨fun _ _ _ _ => rfl, rfl, rfl, rfl, rfl, rfl, rfl, rfl, rfl, rfl, by decide⟩

/-! ## C6: `generate_2026_projections` over all 15 metrics -/

/-- Every field of an ensemble result over a non-empty series of
non-negative values is non-negative. -/
theorem ensemble_fields_nonneg (values : List ℝ) (years : List ℤ) (t : ℤ)
    (hne : values ≠ []) (hnn : ∀ x ∈ values, 0 ≤ x) :
    0 ≤ (ensemble_projection values years t).ensemble ∧
    0 ≤ (ensemble_projection values years t).linear ∧
    0 ≤ (ensemble_projection values years t).polynomial ∧
    0 ≤ (ensemble_projection values years t).exponential_smoothing ∧
    0 ≤ (ensemble_projection values years t).cagr ∧
    0 ≤ (ensemble_projection values years t).std := by
  have hl := project_linear_trend_nonneg values years t
  have hp := project_polynomial_trend_nonneg values years t
  have he := project_exponential_smoothing_nonneg values 0.3 2
  have hc := project_cagr_nonneg values years t hne hnn
  refine ⟨?_, hl, hp, he, hc, ?_⟩
  · show 0 ≤ npAverage
      [project_linear_trend values years t, project_polynomial_trend values years t,
       project_exponential_smoothing values 0.3 2, project_cagr values years t]
      [0.2, 0.3, 0.2, 0.3]
    unfold npAverage
    simp only [List.zip_cons_cons, List.zip_nil_right, List.map_cons,
      List.map_nil, List.sum_cons, List.sum_nil]
    apply div_nonneg _ (by norm_num)
    have h1 := mul_nonneg hl (by norm_num : (0 : ℝ) ≤ 0.2)
    have h2 := mul_nonneg hp (by norm_num : (0 : ℝ) ≤ 0.3)
    have h3 := mul_nonneg he (by norm_num : (0 : ℝ) ≤ 0.2)
    have h4 := mul_nonneg hc (by norm_num : (0 : ℝ) ≤ 0.3)
    linarith
  · show 0 ≤ npStd
      [project_linear_trend values years t, project_polynomial_trend values years t,
       project_exponential_smoothing values 0.3 2, project_cagr values years t]
    exact Real.sqrt_nonneg _

/-- Every column of the three tables is non-empty and holds only
non-negative rational entries. -/
theorem tables_columns_ok :
    ∀ pr ∈ (globalTable.cols ++ regionalTable.cols ++ installationsTable.cols),
      pr.2 ≠ [] ∧ ∀ q ∈ pr.2, (0 : ℚ) ≤ q := by
  norm_num [globalTable, regionalTable, installationsTable, List.forall_mem_cons]
  simp

/-- Every metric name has a column in the combined tables. -/
theorem metric_lookup_isSome :
    ∀ n ∈ metricNames,
      ((globalTable.cols ++ regionalTable.cols ++ installationsTable.cols).lookup
          n).isSome = true := by
  decide

/-- A successful lookup returns an entry of the association list. -/
theorem pair_mem_of_lookup_eq_some {l : List (String × List ℚ)} :
    ∀ {k : String} {v : List ℚ}, l.lookup k = some v → (k, v) ∈ l := by
  induction l with
  | nil =>
      intro k v h
      simp [List.lookup] at h
  | cons a t ih =>
      rcases a with ⟨k1, v1⟩
      intro k v h
      cases hbeq : (k == k1) with
      | true =>
          have hk : k = k1 := eq_of_beq hbeq
          subst hk
          simp [List.lookup, hbeq] at h
          subst h
          exact List.mem_cons_self _ _
      | false =>
          simp [List.lookup, hbeq] at h
          exact List.mem_cons_of_mem _ (ih h)

/-- Each of the 15 metric columns is non-empty with non-negative rational
entries. -/
theorem metric_columns_ok :
    ∀ n ∈ metricNames, allColumnQ n ≠ [] ∧ ∀ q ∈ allColumnQ n, (0 : ℚ) ≤ q := by
  intro n hn
  have hs := metric_lookup_isSome n hn
  rcases ho : (globalTable.cols ++ regionalTable.cols
      ++ installationsTable.cols).lookup n with _ | col
  · rw [ho] at hs
    simp at hs
  · have hcol : allColumnQ n = col := by
      unfold allColumnQ
      rw [ho]
      rfl
    rw [hcol]
    exact tables_columns_ok _ (pair_mem_of_lookup_eq_some ho)

/-- The real-valued view of each metric column is non-empty with
non-negative entries. -/
theorem allColumn_ok (n : String) (hn : n ∈ metricNames) :
    allColumn n ≠ [] ∧ ∀ x ∈ allColumn n, (0 : ℝ) ≤ x := by
  obtain ⟨hne, hnn⟩ := metric_columns_ok n hn
  constructor
  · simp [allColumn, hne]
  · intro x hx
    obtain ⟨q, hq, rfl⟩ := List.mem_map.mp hx
    exact_mod_cast hnn q hq

/-- Looking a key up in the projection list built from a processing order:
the key's own projection when the key occurs in the order, nothing
otherwise. -/
theorem lookup_projectMetrics :
    ∀ (order : List String) (k : String),
      (projectMetrics order).lookup k
        = if k ∈ order then some (metricProjection k) else none := by
  intro order
  induction order with
  | nil => intro k; simp [projectMetrics]
  | cons n t ih =>
      intro k
      by_cases hk : k = n
      · subst hk
        simp [projectMetrics, List.lookup]
      · have hbeq : (k == n) = false := beq_eq_false_iff_ne.mpr hk
        have ih2 := ih k
        simp only [projectMetrics] at ih2
        simp only [projectMetrics, List.map_cons, List.lookup, hbeq]
        rw [ih2]
        simp [List.mem_cons, hk]

/-- The source's three per-table loops build exactly the data-driven map
over the 15 metric names. -/
theorem generate_2026_projections_eq_projectMetrics :
    generate_2026_projections = projectMetrics metricNames := rfl

/-- C6: `generate_2026_projections` on the documented fixed dataset returns
one entry per known metric name — 15 in all, in the source's insertion
order — each an `EnsembleResult` all of whose numeric fields are
non-negative, and the mapping is independent of the order in which the
metrics are processed: any permutation of the processing order yields the
same key-to-result lookup. -/
theorem generate_2026_projections_spec :
    generate_2026_projections.length = 15
    ∧ generate_2026_projections.map Prod.fst = metricNames
    ∧ (∀ i : ℕ,
        0 ≤ (generate_2026_projections.getD i ("", emptyResult)).2.ensemble ∧
        0 ≤ (generate_2026_projections.getD i ("", emptyResult)).2.linear ∧
        0 ≤ (generate_2026_projections.getD i ("", emptyResult)).2.polynomial ∧
        0 ≤ (generate_2026_projections.getD i ("", emptyResult)).2.exponential_smoothing ∧
        0 ≤ (generate_2026_projections.getD i ("", emptyResult)).2.cagr ∧
        0 ≤ (generate_2026_projections.getD i ("", emptyResult)).2.std)
    ∧ (∀ order : List String, order.Perm metricNames →
        ∀ k : String, (projectMetrics order).lookup k
          = generate_2026_projections.lookup k) := by
  refine ⟨rfl, rfl, ?_, ?_⟩
  · intro i
    rw [generate_2026_projections_eq_projectMetrics]
    simp only [projectMetrics]
    by_cases hi : i < (List.map (fun n => (n, metricProjection n)) metricNames).length
    · have hmem : (List.map (fun n => (n, metricProjection n)) metricNames).getD
            i ("", emptyResult)
          ∈ List.map (fun n => (n, metricProjection n)) metricNames := by
        rw [List.getD_eq_getElem _ _ hi]
        exact List.getElem_mem hi
      obtain ⟨n, hn, heq⟩ := List.mem_map.mp hmem
      obtain ⟨hA, hB⟩ := allColumn_ok n hn
      have hf := ensemble_fields_nonneg (allColumn n) years2015to2024 2026 hA hB
      rw [← heq]
      exact hf
    · push_neg at hi
      rw [List.getD_eq_default _ _ hi]
      simp [emptyResult]
  · intro order hperm k
    rw [generate_2026_projections_eq_projectMetrics, lookup_projectMetrics,
      lookup_projectMetrics]
    simp [hperm.mem_iff]

/-- Witness for C6: a reversed processing order yields the same lookup for
a concrete key. -/
theorem generate_2026_projections_spec_witness :
    (projectMetrics metricNames.reverse).lookup "china"
      = generate_2026_projections.lookup "china" :=
  generate_2026_projections_spec.2.2.2 metricNames.reverse
    (List.reverse_perm metricNames) "china"

end Robotics
